import Mathlib

/-!
Verification of the statrs distribution interface layer
(`src/distribution/mod.rs`): a shallow embedding of the capability traits
(Distribution, WeakRngDistribution, Univariate, InverseCDF,
CheckedInverseCDF, Continuous, CheckedContinuous, Discrete,
CheckedDiscrete), of the structural facts of the layer (which methods each
trait declares, their signatures and supertraits), and of the semantic
contracts the documentation imposes on conforming distributions.

`f64` values are modelled as `ℚ` where the code computes with exact
rationals suffices, and as `ℝ` where the natural logarithm is involved.
A loud failure (Rust panic) of an unchecked operation is modelled as
`Option.none`; a checked operation returns `Except StatsError`.
-/

set_option autoImplicit false

namespace Statrs

/-- Modelled from the spec: the shared failure-reporting type (the crate
error type behind the source line `use Result;` is not under src/); the
spec requires it to distinguish at minimum these three failure reasons. -/
inductive StatsError where
  | argOutsideDomain
  | invalidStructure
  | numericallyUndefined
  deriving DecidableEq, Repr

/-! ### Structural data model of the trait layer

A transcription of the trait declarations in `src/distribution/mod.rs`:
which trait each method belongs to, which capability it serves, how it
takes `self`, whether it takes a `&mut R` rng parameter, whether it
acquires a default rng internally, whether it returns `Result`, and
whether its doc comment warns "May panic depending on the implementor".
-/

/-- The traits declared in (or used as supertrait bounds by)
`src/distribution/mod.rs`. `Min` and `Max` come from the `statistics`
module and carry the bounds queries. -/
inductive TraitName where
  | Distribution
  | WeakRngDistribution
  | Univariate
  | InverseCDF
  | CheckedInverseCDF
  | Continuous
  | CheckedContinuous
  | Discrete
  | CheckedDiscrete
  | Min
  | Max
  deriving DecidableEq, Repr

/-- The capability family a method serves, per the spec taxonomy. -/
inductive Capability where
  | sampling
  | cumulative
  | inverseCumulative
  | density
  | mass
  deriving DecidableEq, Repr

/-- How a Rust method receives `self`. -/
inductive SelfMode where
  | sharedRef
  | mutRef
  | byValue
  deriving DecidableEq, Repr

/-- One method of the interface layer, transcribed from its source
signature and doc comment. -/
structure Op where
  name : String
  inTrait : TraitName
  capability : Capability
  selfMode : SelfMode
  takesRngParam : Bool
  acquiresDefaultRng : Bool
  returnsResult : Bool
  mayPanicDoc : Bool
  deriving DecidableEq, Repr

/-- Every method declared by the interface layer, in source order:
`sample` (line 92), `weak_sample` (114), `cdf` (137), `inverse_cdf` (158),
`checked_inverse_cdf` (180), `pdf` (204), `ln_pdf` (218),
`checked_pdf` (236), `checked_ln_pdf` (249), `pmf` (274), `ln_pmf` (289),
`checked_pmf` (307), `checked_ln_pmf` (321). -/
def layerOps : List Op :=
  [ ⟨"sample", TraitName.Distribution, Capability.sampling,
      SelfMode.sharedRef, true, false, false, false⟩,
    ⟨"weak_sample", TraitName.WeakRngDistribution, Capability.sampling,
      SelfMode.sharedRef, false, true, false, false⟩,
    ⟨"cdf", TraitName.Univariate, Capability.cumulative,
      SelfMode.sharedRef, false, false, false, true⟩,
    ⟨"inverse_cdf", TraitName.InverseCDF, Capability.inverseCumulative,
      SelfMode.sharedRef, false, false, false, true⟩,
    ⟨"checked_inverse_cdf", TraitName.CheckedInverseCDF, Capability.inverseCumulative,
      SelfMode.sharedRef, false, false, true, true⟩,
    ⟨"pdf", TraitName.Continuous, Capability.density,
      SelfMode.sharedRef, false, false, false, true⟩,
    ⟨"ln_pdf", TraitName.Continuous, Capability.density,
      SelfMode.sharedRef, false, false, false, true⟩,
    ⟨"checked_pdf", TraitName.CheckedContinuous, Capability.density,
      SelfMode.sharedRef, false, false, true, false⟩,
    ⟨"checked_ln_pdf", TraitName.CheckedContinuous, Capability.density,
      SelfMode.sharedRef, false, false, true, false⟩,
    ⟨"pmf", TraitName.Discrete, Capability.mass,
      SelfMode.sharedRef, false, false, false, true⟩,
    ⟨"ln_pmf", TraitName.Discrete, Capability.mass,
      SelfMode.sharedRef, false, false, false, true⟩,
    ⟨"checked_pmf", TraitName.CheckedDiscrete, Capability.mass,
      SelfMode.sharedRef, false, false, true, false⟩,
    ⟨"checked_ln_pmf", TraitName.CheckedDiscrete, Capability.mass,
      SelfMode.sharedRef, false, false, true, false⟩ ]

/-- Supertrait bounds, transcribed from the source:
`WeakRngDistribution<T>: Distribution<T>` and
`Univariate<T, K>: Distribution<K> + Min<T> + Max<T>`; every other trait
of the layer has no supertrait bound. -/
def supertraits : TraitName → List TraitName
  | TraitName.WeakRngDistribution => [TraitName.Distribution]
  | TraitName.Univariate => [TraitName.Distribution, TraitName.Min, TraitName.Max]
  | _ => []

/-- Definition following the claim words for C5: the claim says a type is
Univariate exactly when it provides `cdf` together with the `Min`/`Max`
bound queries, i.e. the only supertrait obligations would be Min and Max. -/
def univariateClaimObligations : List TraitName := [TraitName.Min, TraitName.Max]

/-! ### Functional embedding of the sampling capability -/

/-- A randomness source interface (the `rand` crate `Rng` bound): drawing
advances the state, so `next_f64` is embedded as state passing; the drawn
`f64` is modelled as `ℚ`. -/
structure Rng (R : Type) where
  next_f64 : R → ℚ × R

/-- Embedding of the `Distribution` trait: `sample<R: Rng>(&self, r: &mut R) -> T`
reads the distribution by shared reference, is generic in the rng type, and
returns the outcome together with the advanced rng state. -/
structure Distribution (D T : Type) where
  sample : {R : Type} → Rng R → D → R → T × R

/-- Modelled from the spec: `weak_rng` from the `rand` crate (not under
src/) acquires a freshly seeded process-default randomness source of type
`XorShiftRng`; the ambient process entropy it reads is made an explicit
argument `E`, and the `XorShiftRng` state type `X` is kept abstract. -/
structure WeakRng (E X : Type) where
  weak_rng : E → X
  rngX : Rng X

/-- Embedding of `WeakRngDistribution::weak_sample`, transcribed from the
source default body: `let mut r = weak_rng(); self.sample::<XorShiftRng>(&mut r)`. -/
def weak_sample {D T E X : Type} (w : WeakRng E X) (dist : Distribution D T)
    (d : D) (e : E) : T :=
  let r := w.weak_rng e
  (dist.sample w.rngX d r).1

/-- Definition following the spec words: acquire a process-default
randomness source scoped to the call, then delegate to the primary
sampling operation, adding no other behavior. -/
def weakSampleSpec {D T E X : Type} (w : WeakRng E X) (dist : Distribution D T)
    (d : D) (e : E) : T :=
  (dist.sample w.rngX d (w.weak_rng e)).1

/-- The `Foo` implementation from the source doc example (lines 82-88):
`sample` just draws from the supplied random number generator. -/
def fooDist : Distribution Unit ℚ :=
  ⟨fun rng _ r => rng.next_f64 r⟩

/-- A concrete rng state for witnesses: the state is a rational, drawing
returns it and increments it. -/
def counterRng : Rng ℚ :=
  ⟨fun s => (s, s + 1)⟩

/-- A concrete process-default source provider for witnesses: the entropy
read from the process seeds the state directly. -/
def seedWeakRng : WeakRng ℚ ℚ :=
  ⟨fun e => e, counterRng⟩

/-! ### Spec-modelled concrete distributions over ℚ

No concrete distribution is under src/; the following are modelled from
the spec's concrete scenarios (section 8) and from the source doc
examples. An unchecked operation returns `Option` (`none` models a loud
failure); a checked one returns `Except StatsError`. The natural
logarithm has no exact rational form, so the log-variants are
parameterized by a partial log map `ln : ℚ → Option ℚ` (`none` models a
value, such as the log of zero density, that fails loudly in linear
scale). -/

/-- Modelled from the spec scenario Uniform(0,1): density 1 inside
[0, 1] and 0 outside. -/
def uniformPdf (x : ℚ) : ℚ :=
  if 0 ≤ x ∧ x ≤ 1 then 1 else 0

/-- Unchecked `pdf` of the modelled Uniform(0,1): total, never fails. -/
def uniformPdfU (x : ℚ) : Option ℚ :=
  some (uniformPdf x)

/-- Checked `checked_pdf` of the modelled Uniform(0,1). -/
def uniformCheckedPdf (x : ℚ) : Except StatsError ℚ :=
  Except.ok (uniformPdf x)

/-- Unchecked `ln_pdf` of the modelled Uniform(0,1): the partial log of
the density; fails loudly where the log has no value. -/
def uniformLnPdfU (ln : ℚ → Option ℚ) (x : ℚ) : Option ℚ :=
  ln (uniformPdf x)

/-- Checked `checked_ln_pdf` of the modelled Uniform(0,1): reports a
numerically undefined log as a typed failure. -/
def uniformCheckedLnPdf (ln : ℚ → Option ℚ) (x : ℚ) : Except StatsError ℚ :=
  match ln (uniformPdf x) with
  | some v => Except.ok v
  | none => Except.error StatsError.numericallyUndefined

/-- Modelled from the spec scenario Binomial(p, n): the probability mass
`C(n, k) p^k (1-p)^(n-k)` for `k ≤ n` and 0 beyond the support. -/
def binomialPmf (p : ℚ) (n k : ℕ) : ℚ :=
  if k ≤ n then (n.choose k : ℚ) * p ^ k * (1 - p) ^ (n - k) else 0

/-- Unchecked `pmf` of the modelled Binomial. -/
def binomialPmfU (p : ℚ) (n k : ℕ) : Option ℚ :=
  some (binomialPmf p n k)

/-- Checked `checked_pmf` of the modelled Binomial. -/
def binomialCheckedPmf (p : ℚ) (n k : ℕ) : Except StatsError ℚ :=
  Except.ok (binomialPmf p n k)

/-- Unchecked `ln_pmf` of the modelled Binomial: the partial log of the
mass. -/
def binomialLnPmfU (ln : ℚ → Option ℚ) (p : ℚ) (n k : ℕ) : Option ℚ :=
  ln (binomialPmf p n k)

/-- Checked `checked_ln_pmf` of the modelled Binomial. -/
def binomialCheckedLnPmf (ln : ℚ → Option ℚ) (p : ℚ) (n k : ℕ) :
    Except StatsError ℚ :=
  match ln (binomialPmf p n k) with
  | some v => Except.ok v
  | none => Except.error StatsError.numericallyUndefined

/-- Partial sums of a weight list: entry `i` is the sum of the first
`i + 1` weights. -/
def partialSums : List ℚ → List ℚ
  | [] => []
  | x :: xs => x :: (partialSums xs).map (fun c => x + c)

/-- Modelled from the spec: the Categorical quantile function (the
distribution itself is not under src/). Per spec section 4.5 the inverse
CDF returns the smallest outcome index whose cumulative weight reaches
`p`; per section 4.5 the unchecked form may fail loudly for `p` outside
[0, 1], modelled as `none`. -/
def catInverseCdf (w : List ℚ) (p : ℚ) : Option ℚ :=
  if p < 0 ∨ 1 < p then none
  else some (((partialSums w).findIdx fun c => decide (p * w.sum ≤ c) : ℕ) : ℚ)

/-- Modelled from the spec: the checked Categorical quantile function;
out-of-range `p` is reported as a typed, recoverable failure. -/
def catCheckedInverseCdf (w : List ℚ) (p : ℚ) : Except StatsError ℚ :=
  if p < 0 ∨ 1 < p then Except.error StatsError.argOutsideDomain
  else Except.ok (((partialSums w).findIdx fun c => decide (p * w.sum ≤ c) : ℕ) : ℚ)

/-- The partial log map used by witnesses: defined exactly at 1 (where
the log is the rational 0) and loud everywhere else. -/
def lnAtOne (q : ℚ) : Option ℚ :=
  if q = 1 then some 0 else none

/-! ### Spec-modelled conformance contracts (Univariate, quantile, log) -/

/-- Modelled from the spec: the shape of a conforming univariate
distribution — bounds queries and a CDF over the outcome type, `f64`
modelled as ℚ (concrete distributions are not under src/). -/
structure UnivariateModel where
  minimum : ℚ
  maximum : ℚ
  cdf : ℚ → ℚ

/-- Modelled from the spec (sections 3, 4.2, 8): the contract a
conforming Univariate distribution must uphold — ordered bounds, a CDF
non-decreasing over the domain, 0 at the minimum and 1 at the maximum. -/
structure UnivariateConforming (M : UnivariateModel) : Prop where
  bounds_le : M.minimum ≤ M.maximum
  cdf_mono : ∀ x₁ x₂, M.minimum ≤ x₁ → x₁ ≤ x₂ → x₂ ≤ M.maximum →
    M.cdf x₁ ≤ M.cdf x₂
  cdf_min : M.cdf M.minimum = 0
  cdf_max : M.cdf M.maximum = 1

/-- The CDF of the modelled Uniform(0,1): clamped identity. -/
def uniformCdf (x : ℚ) : ℚ :=
  if x < 0 then 0 else if 1 < x then 1 else x

/-- The modelled Uniform(0,1) as a univariate model. -/
def uniform01 : UnivariateModel :=
  ⟨0, 1, uniformCdf⟩

/-- Modelled from the spec: the shape of a distribution carrying both a
CDF and a quantile function (`inverse_cdf`). -/
structure QuantileModel where
  minimum : ℚ
  maximum : ℚ
  cdf : ℚ → ℚ
  inverse_cdf : ℚ → ℚ

/-- Modelled from the spec (sections 4.5, 8): the contract of a
conforming distribution with strictly increasing CDF and a quantile
function — for `p` in (0, 1), `inverse_cdf p` is the smallest domain
value whose CDF reaches `p`. -/
structure QuantileConforming (M : QuantileModel) : Prop where
  cdf_strict : ∀ x₁ x₂, M.minimum ≤ x₁ → x₁ < x₂ → x₂ ≤ M.maximum →
    M.cdf x₁ < M.cdf x₂
  quantile_mem : ∀ p, 0 < p → p < 1 →
    M.minimum ≤ M.inverse_cdf p ∧ M.inverse_cdf p ≤ M.maximum
  quantile_ge : ∀ p, 0 < p → p < 1 → p ≤ M.cdf (M.inverse_cdf p)
  quantile_least : ∀ p, 0 < p → p < 1 → ∀ y, M.minimum ≤ y → y ≤ M.maximum →
    p ≤ M.cdf y → M.inverse_cdf p ≤ y

/-- The modelled Uniform(0,1) with its quantile function (the identity on
(0, 1)). -/
def uniformQ : QuantileModel :=
  ⟨0, 1, uniformCdf, fun p => p⟩

/-- Modelled from the spec: the shape of a conforming continuous density
with its log-variant; here `f64` is modelled as ℝ so that the natural
logarithm is available. -/
structure ContinuousModel where
  minimum : ℝ
  maximum : ℝ
  pdf : ℝ → ℝ
  ln_pdf : ℝ → ℝ

/-- Modelled from the spec (sections 3, 4.3): the log-variant identity a
conforming continuous distribution must uphold in-domain. -/
structure ContinuousLogLaw (M : ContinuousModel) : Prop where
  ln_law : ∀ x, M.minimum ≤ x → x ≤ M.maximum → M.ln_pdf x = Real.log (M.pdf x)

/-- Modelled from the spec: the shape of a conforming discrete mass
function with its log-variant, over integer outcomes. -/
structure DiscreteModel where
  minimum : ℤ
  maximum : ℤ
  pmf : ℤ → ℝ
  ln_pmf : ℤ → ℝ

/-- Modelled from the spec (sections 3, 4.3): the log-variant identity a
conforming discrete distribution must uphold in-domain. -/
structure DiscreteLogLaw (M : DiscreteModel) : Prop where
  ln_law : ∀ k, M.minimum ≤ k → k ≤ M.maximum → M.ln_pmf k = Real.log (M.pmf k)

/-- The modelled Uniform(0,1) over ℝ: density 1 inside [0, 1], 0
outside; the log-density is 0 inside the domain. -/
noncomputable def uniformR : ContinuousModel :=
  ⟨0, 1, fun x => if 0 ≤ x ∧ x ≤ 1 then 1 else 0,
    fun x => if 0 ≤ x ∧ x ≤ 1 then 0 else Real.log 0⟩

/-- The modelled DiscreteUniform(0,1) over ℝ: mass 1/2 on {0, 1}, 0
outside; the log-mass is `log (1/2)` inside the domain. -/
noncomputable def discreteUniformR : DiscreteModel :=
  ⟨0, 1, fun k => if 0 ≤ k ∧ k ≤ 1 then (1 : ℝ) / 2 else 0,
    fun k => if 0 ≤ k ∧ k ≤ 1 then Real.log ((1 : ℝ) / 2) else 0⟩

/-! ### Helper lemmas -/

/-- Inside [0, 1] the modelled Uniform(0,1) CDF is the identity. -/
theorem uniformCdf_of_mem {x : ℚ} (h0 : 0 ≤ x) (h1 : x ≤ 1) :
    uniformCdf x = x := by
  unfold uniformCdf
  rw [if_neg (not_lt.mpr h0), if_neg (not_lt.mpr h1)]

/-- The modelled Uniform(0,1) satisfies the Univariate conformance
contract. -/
theorem uniform01_conforming : UnivariateConforming uniform01 := by
  refine ⟨by decide, ?_, ?_, ?_⟩
  · intro x₁ x₂ h1 h2 h3
    have e1 : uniform01.cdf x₁ = x₁ := uniformCdf_of_mem h1 (le_trans h2 h3)
    have e2 : uniform01.cdf x₂ = x₂ := uniformCdf_of_mem (le_trans h1 h2) h3
    rw [e1, e2]
    exact h2
  · show uniformCdf 0 = 0
    decide
  · show uniformCdf 1 = 1
    decide

/-- The modelled Uniform(0,1) with identity quantile function satisfies
the quantile conformance contract. -/
theorem uniformQ_conforming : QuantileConforming uniformQ := by
  refine ⟨?_, ?_, ?_, ?_⟩
  · intro x₁ x₂ h1 hl h3
    have e1 : uniformQ.cdf x₁ = x₁ :=
      uniformCdf_of_mem h1 (le_of_lt (lt_of_lt_of_le hl h3))
    have e2 : uniformQ.cdf x₂ = x₂ :=
      uniformCdf_of_mem (le_trans h1 (le_of_lt hl)) h3
    rw [e1, e2]
    exact hl
  · intro p hp0 hp1
    exact ⟨le_of_lt hp0, le_of_lt hp1⟩
  · intro p hp0 hp1
    have e : uniformQ.cdf (uniformQ.inverse_cdf p) = p :=
      uniformCdf_of_mem (le_of_lt hp0) (le_of_lt hp1)
    rw [e]
  · intro p hp0 hp1 y hy1 hy2 hy3
    have e : uniformQ.cdf y = y := uniformCdf_of_mem hy1 hy2
    rw [e] at hy3
    exact hy3

/-- The modelled Uniform(0,1) over ℝ satisfies the continuous log law. -/
theorem uniformR_logLaw : ContinuousLogLaw uniformR := by
  constructor
  intro x h1 h2
  have hx : 0 ≤ x ∧ x ≤ 1 := ⟨h1, h2⟩
  show (if 0 ≤ x ∧ x ≤ 1 then (0 : ℝ) else Real.log 0) =
    Real.log (if 0 ≤ x ∧ x ≤ 1 then (1 : ℝ) else 0)
  rw [if_pos hx, if_pos hx, Real.log_one]

/-- The modelled DiscreteUniform(0,1) over ℝ satisfies the discrete log
law. -/
theorem discreteUniformR_logLaw : DiscreteLogLaw discreteUniformR := by
  constructor
  intro k h1 h2
  have hk : 0 ≤ k ∧ k ≤ 1 := ⟨h1, h2⟩
  show (if 0 ≤ k ∧ k ≤ 1 then Real.log ((1 : ℝ) / 2) else 0) =
    Real.log (if 0 ≤ k ∧ k ≤ 1 then (1 : ℝ) / 2 else 0)
  rw [if_pos hk, if_pos hk]

/-! ### Claim theorems -/

/-- Claim C1: for every modelled distribution carrying both the checked
and the unchecked form of a capability (Uniform pdf/ln_pdf, Binomial
pmf/ln_pmf, Categorical inverse_cdf), on every input where the unchecked
operation does not fail loudly the checked operation returns `Ok` of the
unchecked result. -/
theorem checked_unchecked_agree (ln : ℚ → Option ℚ) (x q : ℚ) (n k : ℕ)
    (w : List ℚ) (p : ℚ) :
    (∀ v, uniformPdfU x = some v → uniformCheckedPdf x = Except.ok v) ∧
    (∀ v, uniformLnPdfU ln x = some v → uniformCheckedLnPdf ln x = Except.ok v) ∧
    (∀ v, binomialPmfU q n k = some v → binomialCheckedPmf q n k = Except.ok v) ∧
    (∀ v, binomialLnPmfU ln q n k = some v → binomialCheckedLnPmf ln q n k = Except.ok v) ∧
    (∀ v, catInverseCdf w p = some v → catCheckedInverseCdf w p = Except.ok v) := by
  refine ⟨?_, ?_, ?_, ?_, ?_⟩
  · intro v h
    have hv : uniformPdf x = v := Option.some.inj h
    rw [uniformCheckedPdf, hv]
  · intro v h
    have hv : ln (uniformPdf x) = some v := h
    rw [uniformCheckedLnPdf, hv]
  · intro v h
    have hv : binomialPmf q n k = v := Option.some.inj h
    rw [binomialCheckedPmf, hv]
  · intro v h
    have hv : ln (binomialPmf q n k) = some v := h
    rw [binomialCheckedLnPmf, hv]
  · intro v h
    rw [catInverseCdf] at h
    rw [catCheckedInverseCdf]
    by_cases hc : p < 0 ∨ 1 < p
    · rw [if_pos hc] at h
      exact Option.noConfusion h
    · rw [if_neg hc] at h
      rw [if_neg hc, Option.some.inj h]

/-- Witness for C1 at the spec's concrete scenarios. -/
theorem checked_unchecked_agree_witness :
    uniformCheckedPdf (mkRat 1 2) = Except.ok 1 ∧
    uniformCheckedLnPdf lnAtOne (mkRat 1 2) = Except.ok 0 ∧
    binomialCheckedPmf (1 / 2) 10 5 = Except.ok (63 / 256) ∧
    binomialCheckedLnPmf lnAtOne 1 1 1 = Except.ok 0 ∧
    catCheckedInverseCdf [0, 1, 2] (mkRat 1 2) = Except.ok 2 := by
  have h252 : Nat.choose 10 5 = 252 := by decide
  have hb : binomialPmfU (1 / 2) 10 5 = some (63 / 256) := by
    norm_num [binomialPmfU, binomialPmf, h252]
  have hb1 : binomialLnPmfU lnAtOne 1 1 1 = some 0 := by
    norm_num [binomialLnPmfU, binomialPmf, lnAtOne]
  have hcat : catInverseCdf [0, 1, 2] (mkRat 1 2) = some 2 := by
    norm_num [catInverseCdf, partialSums, List.findIdx, List.findIdx.go]
  refine ⟨(checked_unchecked_agree lnAtOne (mkRat 1 2) (1 / 2) 10 5 [0, 1, 2] (mkRat 1 2)).1
            1 (by decide),
          (checked_unchecked_agree lnAtOne (mkRat 1 2) (1 / 2) 10 5 [0, 1, 2] (mkRat 1 2)).2.1
            0 (by decide),
          (checked_unchecked_agree lnAtOne (mkRat 1 2) (1 / 2) 10 5 [0, 1, 2] (mkRat 1 2)).2.2.1
            (63 / 256) hb,
          (checked_unchecked_agree lnAtOne (mkRat 1 2) 1 1 1 [0, 1, 2] (mkRat 1 2)).2.2.2.1
            0 hb1,
          (checked_unchecked_agree lnAtOne (mkRat 1 2) (1 / 2) 10 5 [0, 1, 2] (mkRat 1 2)).2.2.2.2
            2 hcat⟩

/-- Claim C2: `weak_sample` is exactly acquisition of a process-default
randomness source scoped to the call followed by delegation to the
primary sampling operation, adding no other behavior. -/
theorem weak_sample_delegates {D T E X : Type} (w : WeakRng E X)
    (dist : Distribution D T) (d : D) (e : E) :
    weak_sample w dist d e = weakSampleSpec w dist d e ∧
    weak_sample w dist d e = (dist.sample w.rngX d (w.weak_rng e)).1 :=
  ⟨rfl, rfl⟩

/-- Claim C3: the modelled checked inverse CDF reports a probability
argument outside [0, 1] as a typed, recoverable failure, while the
unchecked form fails loudly on the same input. -/
theorem checked_inverse_cdf_out_of_range (w : List ℚ) (p : ℚ)
    (h : p < 0 ∨ 1 < p) :
    catCheckedInverseCdf w p = Except.error StatsError.argOutsideDomain ∧
    catInverseCdf w p = none := by
  rw [catCheckedInverseCdf, catInverseCdf, if_pos h, if_pos h]
  exact ⟨rfl, rfl⟩

/-- Witness for C3 at the spec's Categorical scenario with p = -1. -/
theorem checked_inverse_cdf_out_of_range_witness :
    ((-1 : ℚ) < 0 ∨ 1 < (-1 : ℚ)) ∧
    catCheckedInverseCdf [0, 1, 2] (-1) = Except.error StatsError.argOutsideDomain ∧
    catInverseCdf [0, 1, 2] (-1) = none :=
  ⟨Or.inl (by decide),
   (checked_inverse_cdf_out_of_range [0, 1, 2] (-1) (Or.inl (by decide))).1,
   (checked_inverse_cdf_out_of_range [0, 1, 2] (-1) (Or.inl (by decide))).2⟩

/-- Claim C4: the Cumulative capability has no checked counterpart in the
layer — the only cumulative method is `cdf`, it returns a bare value, its
doc permits loud failure, no `checked_cdf` is declared anywhere, while
the density, mass and inverse-cumulative capabilities each declare a
checked (Result-returning) variant. -/
theorem cumulative_no_checked_variant :
    ((layerOps.filter fun o => o.capability == Capability.cumulative).map Op.name
      = ["cdf"]) ∧
    ((layerOps.all fun o => o.capability != Capability.cumulative ||
      (!o.returnsResult && o.mayPanicDoc)) = true) ∧
    ((layerOps.all fun o => o.name != "checked_cdf") = true) ∧
    ((layerOps.any fun o => o.capability == Capability.density && o.returnsResult) = true) ∧
    ((layerOps.any fun o => o.capability == Capability.mass && o.returnsResult) = true) ∧
    ((layerOps.any fun o => o.capability == Capability.inverseCumulative && o.returnsResult) = true) := by
  decide

/-- Counterexample to claim C5 as stated: implementing Univariate also
requires the sampling supertrait `Distribution`, which the claim's
"exactly when it provides cdf together with the bound queries"
excludes. -/
theorem univariate_requires_sampling_cex :
    TraitName.Distribution ∈ supertraits TraitName.Univariate ∧
    TraitName.Distribution ∉ univariateClaimObligations := by
  decide

/-- Claim C5 as amended: the Univariate capability composes the
Cumulative capability with the Bounds queries and the sampling
supertrait — its supertrait obligations are exactly Distribution, Min
and Max, and the one method it adds is the cumulative `cdf`. -/
theorem univariate_composition_amended :
    supertraits TraitName.Univariate =
      [TraitName.Distribution, TraitName.Min, TraitName.Max] ∧
    ((layerOps.filter fun o => o.inTrait == TraitName.Univariate).map Op.name
      = ["cdf"]) ∧
    (((layerOps.filter fun o => o.inTrait == TraitName.Univariate).all fun o =>
      o.capability == Capability.cumulative) = true) := by
  decide

/-- Claim C6: a conforming Univariate distribution has a CDF that is
non-decreasing on the domain, bounded in [0, 1] there (derived from
monotonicity and the endpoint laws), and equal to 0 at the minimum and 1
at the maximum. -/
theorem cdf_mono_bounded_endpoints (M : UnivariateModel)
    (h : UnivariateConforming M) :
    (∀ x₁ x₂, M.minimum ≤ x₁ → x₁ ≤ x₂ → x₂ ≤ M.maximum →
      M.cdf x₁ ≤ M.cdf x₂) ∧
    (∀ x, M.minimum ≤ x → x ≤ M.maximum → 0 ≤ M.cdf x ∧ M.cdf x ≤ 1) ∧
    M.cdf M.minimum = 0 ∧ M.cdf M.maximum = 1 := by
  refine ⟨h.cdf_mono, ?_, h.cdf_min, h.cdf_max⟩
  intro x hx1 hx2
  constructor
  · have hlo := h.cdf_mono M.minimum x le_rfl hx1 hx2
    rw [h.cdf_min] at hlo
    exact hlo
  · have hhi := h.cdf_mono x M.maximum hx1 hx2 le_rfl
    rw [h.cdf_max] at hhi
    exact hhi

/-- Witness for C6 at the modelled Uniform(0,1). -/
theorem cdf_mono_bounded_endpoints_witness :
    uniform01.cdf uniform01.minimum = 0 ∧
    uniform01.cdf uniform01.maximum = 1 ∧
    (0 ≤ uniform01.cdf (mkRat 1 2) ∧ uniform01.cdf (mkRat 1 2) ≤ 1) ∧
    uniform01.cdf (mkRat 1 3) ≤ uniform01.cdf (mkRat 1 2) := by
  obtain ⟨hmono, hbdd, hmin, hmax⟩ :=
    cdf_mono_bounded_endpoints uniform01 uniform01_conforming
  exact ⟨hmin, hmax, hbdd (mkRat 1 2) (by decide) (by decide),
    hmono (mkRat 1 3) (mkRat 1 2) (by decide) (by decide) (by decide)⟩

/-- Claim C7: for a conforming distribution with strictly increasing CDF
and a least-element quantile function, `cdf (inverse_cdf p) = p` for
every attained `p` in (0, 1), and `inverse_cdf (cdf x) = x` for every
domain point whose CDF value lies in (0, 1). -/
theorem inverse_cdf_roundtrip (M : QuantileModel) (h : QuantileConforming M) :
    (∀ p, 0 < p → p < 1 →
      (∃ x, M.minimum ≤ x ∧ x ≤ M.maximum ∧ M.cdf x = p) →
      M.cdf (M.inverse_cdf p) = p) ∧
    (∀ x, M.minimum ≤ x → x ≤ M.maximum → 0 < M.cdf x → M.cdf x < 1 →
      M.inverse_cdf (M.cdf x) = x) := by
  have mono : ∀ x₁ x₂, M.minimum ≤ x₁ → x₁ ≤ x₂ → x₂ ≤ M.maximum →
      M.cdf x₁ ≤ M.cdf x₂ := by
    intro x₁ x₂ h1 h2 h3
    rcases eq_or_lt_of_le h2 with he | hl
    · rw [he]
    · exact le_of_lt (h.cdf_strict x₁ x₂ h1 hl h3)
  constructor
  · rintro p hp0 hp1 ⟨x, hx1, hx2, hx3⟩
    have hle : M.inverse_cdf p ≤ x :=
      h.quantile_least p hp0 hp1 x hx1 hx2 (le_of_eq hx3.symm)
    have hmem := h.quantile_mem p hp0 hp1
    have hup : M.cdf (M.inverse_cdf p) ≤ M.cdf x := mono _ x hmem.1 hle hx2
    have hlo : p ≤ M.cdf (M.inverse_cdf p) := h.quantile_ge p hp0 hp1
    exact le_antisymm (hx3 ▸ hup) hlo
  · intro x hx1 hx2 hc0 hc1
    have hle : M.inverse_cdf (M.cdf x) ≤ x :=
      h.quantile_least (M.cdf x) hc0 hc1 x hx1 hx2 le_rfl
    have hmem := h.quantile_mem (M.cdf x) hc0 hc1
    rcases eq_or_lt_of_le hle with he | hl
    · exact he
    · exfalso
      have hstrict := h.cdf_strict _ x hmem.1 hl hx2
      exact absurd (h.quantile_ge (M.cdf x) hc0 hc1) (not_le.mpr hstrict)

/-- Witness for C7 at the modelled Uniform(0,1). -/
theorem inverse_cdf_roundtrip_witness :
    uniformQ.cdf (uniformQ.inverse_cdf (mkRat 1 2)) = mkRat 1 2 ∧
    uniformQ.inverse_cdf (uniformQ.cdf (mkRat 1 3)) = mkRat 1 3 := by
  obtain ⟨hA, hB⟩ := inverse_cdf_roundtrip uniformQ uniformQ_conforming
  exact ⟨hA (mkRat 1 2) (by decide) (by decide)
           ⟨mkRat 1 2, by decide, by decide, by decide⟩,
         hB (mkRat 1 3) (by decide) (by decide) (by decide) (by decide)⟩

/-- Claim C8: for a conforming continuous distribution the log-density
equals the log of the density at every in-domain point (and the density
is recovered by exponentiation where positive), and symmetrically for a
conforming discrete distribution. -/
theorem ln_variant_identity (M : ContinuousModel) (N : DiscreteModel)
    (hM : ContinuousLogLaw M) (hN : DiscreteLogLaw N) :
    (∀ x, M.minimum ≤ x → x ≤ M.maximum →
      M.ln_pdf x = Real.log (M.pdf x) ∧
      (0 < M.pdf x → Real.exp (M.ln_pdf x) = M.pdf x)) ∧
    (∀ k, N.minimum ≤ k → k ≤ N.maximum →
      N.ln_pmf k = Real.log (N.pmf k) ∧
      (0 < N.pmf k → Real.exp (N.ln_pmf k) = N.pmf k)) := by
  constructor
  · intro x h1 h2
    have hl := hM.ln_law x h1 h2
    refine ⟨hl, fun hp => ?_⟩
    rw [hl]
    exact Real.exp_log hp
  · intro k h1 h2
    have hl := hN.ln_law k h1 h2
    refine ⟨hl, fun hp => ?_⟩
    rw [hl]
    exact Real.exp_log hp

/-- Witness for C8 at the modelled Uniform(0,1) and DiscreteUniform(0,1). -/
theorem ln_variant_identity_witness :
    uniformR.ln_pdf (1 / 2) = Real.log (uniformR.pdf (1 / 2)) ∧
    discreteUniformR.ln_pmf 0 = Real.log (discreteUniformR.pmf 0) := by
  obtain ⟨hC, hD⟩ := ln_variant_identity uniformR discreteUniformR
    uniformR_logLaw discreteUniformR_logLaw
  exact ⟨(hC (1 / 2) (by norm_num [uniformR]) (by norm_num [uniformR])).1,
         (hD 0 (by norm_num [discreteUniformR]) (by norm_num [discreteUniformR])).1⟩

/-- Claim C9: every method of the layer takes the distribution by shared
reference; the only method with a caller-supplied rng parameter is
`sample`, and the only method acquiring a default rng internally is
`weak_sample`. -/
theorem ops_shared_self_only_rng_mutation :
    layerOps.map Op.name =
      ["sample", "weak_sample", "cdf", "inverse_cdf", "checked_inverse_cdf",
       "pdf", "ln_pdf", "checked_pdf", "checked_ln_pdf",
       "pmf", "ln_pmf", "checked_pmf", "checked_ln_pmf"] ∧
    ((layerOps.all fun o => o.selfMode == SelfMode.sharedRef) = true) ∧
    ((layerOps.all fun o => !o.takesRngParam || o.name == "sample") = true) ∧
    ((layerOps.all fun o => !o.acquiresDefaultRng || o.name == "weak_sample") = true) := by
  decide

/-- Claim C10: `sample` is deterministic in its full inputs — equal
distribution objects and equal rng states yield equal outcomes and equal
final states — while `weak_sample` is not a function of the distribution
object alone: on the doc's `Foo` distribution two calls under different
process entropy disagree. -/
theorem sample_deterministic_weak_sample_not :
    (∀ {D T R : Type} (dist : Distribution D T) (rng : Rng R) (d₁ d₂ : D)
      (r₁ r₂ : R), d₁ = d₂ → r₁ = r₂ →
      dist.sample rng d₁ r₁ = dist.sample rng d₂ r₂) ∧
    (∃ e₁ e₂ : ℚ, weak_sample seedWeakRng fooDist () e₁ ≠
      weak_sample seedWeakRng fooDist () e₂) := by
  constructor
  · intro D T R dist rng d₁ d₂ r₁ r₂ hd hr
    rw [hd, hr]
  · exact ⟨0, 1, by decide⟩

/-- Witness for C10 at the doc's `Foo` distribution and the concrete
counter rng. -/
theorem sample_deterministic_weak_sample_not_witness :
    fooDist.sample counterRng () 5 = fooDist.sample counterRng () 5 ∧
    weak_sample seedWeakRng fooDist () 0 ≠ weak_sample seedWeakRng fooDist () 1 := by
  obtain ⟨hdet, _⟩ := sample_deterministic_weak_sample_not
  exact ⟨hdet fooDist counterRng () () 5 5 rfl rfl, by decide⟩

end Statrs
